import Mathlib

/-!
Verification of the Splitz balance/ledger aggregation engine.

The definitions below are a shallow embedding of the Convex query and
mutation handlers in `convex/groups.js`, `convex/dashboard.js`,
`convex/settlements.js`, `convex/contacts.js`, and of the sorting logic in
`components/group-balances.jsx`.  User ids are modelled as natural numbers
(the JavaScript code compares id strings with a total order; only the
totality of the order matters), monetary amounts as rationals, and the
record store as explicit lists and lookup functions.  JavaScript code that
dereferences a possibly-null value is modelled with `Option`: a `none`
result stands for the thrown TypeError aborting the query.
-/

namespace Splitz

abbrev UserId := ℕ

abbrev Amount := ℚ

/-- A split of one expense: the share assigned to one participant. -/
structure Split where
  userId : UserId
  amount : Amount
  paid : Bool
deriving Repr, DecidableEq

/-- An expense record, with the fields the balance engine reads. -/
structure Expense where
  paidByUserId : UserId
  amount : Amount
  splits : List Split
  groupId : Option ℕ
deriving Repr, DecidableEq

/-- A settlement record, with the fields the balance engine reads. -/
structure Settlement where
  amount : Amount
  paidByUserId : UserId
  receivedByUserId : UserId
  groupId : Option ℕ
deriving Repr, DecidableEq

/-- A group member entry as stored on a group document. -/
structure Member where
  userId : UserId
  role : String
deriving Repr, DecidableEq

/-- A group document. -/
structure Group where
  name : String
  members : List Member
  createdBy : UserId
deriving Repr, DecidableEq

/-- A user document, as returned by the db lookup for display resolution. -/
structure User where
  name : String
  email : String
  imageUrl : String
deriving Repr, DecidableEq

/-- The user table: `ctx.db.get` on a user id, `none` for deleted users. -/
abbrev UserDb := UserId → Option User

/-! ## Group ledgers (`getGroupExpenses`, convex/groups.js)

The handler keeps a flat signed total per member (`totals`) and a pairwise
directional ledger (`ledger[debtor][creditor]`).  We model both as total
functions that are zero outside the touched cells, exactly matching the
object initialised to zero for every member pair. -/

/-- Pointwise increment of a one-dimensional tally: `f[k] += d`. -/
def bump (f : UserId → Amount) (k : UserId) (d : Amount) : UserId → Amount :=
  fun x => if x = k then f x + d else f x

/-- Pointwise increment of a ledger cell: `L[i][j] += d`. -/
def bump2 (L : UserId → UserId → Amount) (i j : UserId) (d : Amount) :
    UserId → UserId → Amount :=
  fun x y => if x = i ∧ y = j then L x y + d else L x y

/-- The running state of `getGroupExpenses`: flat totals plus the pairwise
debtor-to-creditor ledger. -/
structure GroupLedgers where
  totals : UserId → Amount
  ledger : UserId → UserId → Amount

/-- The zero initial state (`totals` and every ledger cell start at 0). -/
def GroupLedgers.init : GroupLedgers :=
  { totals := fun _ => 0, ledger := fun _ _ => 0 }

/-- One split of the expense loop of `getGroupExpenses`: skip the split of
the payer and splits already marked paid, otherwise record the directional
debt and update the flat totals (convex/groups.js lines 126-135). -/
def applySplit (payer : UserId) (st : GroupLedgers) (s : Split) : GroupLedgers :=
  if s.userId = payer ∨ s.paid = true then st
  else
    { totals := bump (bump st.totals payer s.amount) s.userId (-s.amount)
      ledger := bump2 st.ledger s.userId payer s.amount }

/-- One expense of the expense loop of `getGroupExpenses`. -/
def applyExpense (st : GroupLedgers) (e : Expense) : GroupLedgers :=
  e.splits.foldl (applySplit e.paidByUserId) st

/-- One settlement of the settlement loop of `getGroupExpenses`
(convex/groups.js lines 139-144). -/
def applySettlementGroup (st : GroupLedgers) (s : Settlement) : GroupLedgers :=
  { totals := bump (bump st.totals s.paidByUserId s.amount) s.receivedByUserId (-s.amount)
    ledger := bump2 st.ledger s.paidByUserId s.receivedByUserId (-s.amount) }

/-! ## Pairwise netting pass (convex/groups.js lines 146-161) -/

/-- One iteration of the nested netting loop: the guard `a >= b` skips the
pair, otherwise the two cells of the unordered pair are collapsed into a
single non-negative direction. -/
def netStep (L : UserId → UserId → Amount) (a b : UserId) : UserId → UserId → Amount :=
  if b ≤ a then L
  else
    let diff := L a b - L b a
    fun x y =>
      if x = a ∧ y = b then (if 0 < diff then diff else 0)
      else if x = b ∧ y = a then (if diff < 0 then -diff else 0)
      else L x y

/-- The inner `ids.forEach((b) => ...)` loop for a fixed outer id. -/
def innerNet (a : UserId) (bs : List UserId) (L : UserId → UserId → Amount) :
    UserId → UserId → Amount :=
  bs.foldl (fun acc b => netStep acc a b) L

/-- The full netting pass: the nested `ids.forEach` loops. -/
def netPass (ids : List UserId) (L : UserId → UserId → Amount) :
    UserId → UserId → Amount :=
  ids.foldl (fun acc a => innerNet a ids acc) L

/-- The step of the sorted pair `(a, b)` touches cell `(x, y)`. -/
def touches (a b x y : UserId) : Prop :=
  a < b ∧ ((x = a ∧ y = b) ∨ (x = b ∧ y = a))

instance (a b x y : UserId) : Decidable (touches a b x y) := by
  unfold touches; infer_instance

/-- The outer loop of the netting pass generalized over the remaining list
of outer ids, with the inner id list held fixed. -/
def outerNet (ids : List UserId) (as' : List UserId)
    (L : UserId → UserId → Amount) : UserId → UserId → Amount :=
  as'.foldl (fun acc a => innerNet a ids acc) L

/-! ## Member resolution and response shaping of `getGroupExpenses` -/

/-- A resolved member detail row (convex/groups.js lines 103-108).  The
source reads `u._id`, `u.name`, `u.imageUrl` without a null check, so a
deleted user produces a thrown TypeError, modelled by `none`. -/
structure MemberDetail where
  id : UserId
  name : String
  imageUrl : String
  role : String
deriving Repr, DecidableEq

/-- Resolution of one member row; `none` models the null dereference. -/
def memberDetailOf (users : UserDb) (m : Member) : Option MemberDetail :=
  (users m.userId).map fun u =>
    { id := m.userId, name := u.name, imageUrl := u.imageUrl, role := m.role }

/-- One row of the `balances` array shaped at the end of
`getGroupExpenses` (convex/groups.js lines 164-173). -/
structure MemberBalance where
  id : UserId
  name : String
  imageUrl : String
  role : String
  totalBalance : Amount
  owes : List (UserId × Amount)
  owedBy : List (UserId × Amount)
deriving Repr, DecidableEq

/-- The parts of the `getGroupExpenses` response the claims are about. -/
structure GroupExpensesResult where
  members : List MemberDetail
  balances : List MemberBalance
deriving Repr, DecidableEq

/-- The `getGroupExpenses` handler (convex/groups.js lines 80-193), given
the already-fetched group document and its scoped expense and settlement
records.  A `none` result models the member resolution throwing on a
deleted user. -/
def getGroupExpenses (users : UserDb) (group : Group) (expenses : List Expense)
    (settlements : List Settlement) : Option GroupExpensesResult :=
  (group.members.mapM (memberDetailOf users)).map fun memberDetails =>
    let ids := memberDetails.map (fun m => m.id)
    let st1 := expenses.foldl applyExpense GroupLedgers.init
    let st2 := settlements.foldl applySettlementGroup st1
    let L := netPass ids st2.ledger
    let balances := memberDetails.map fun m =>
      { id := m.id, name := m.name, imageUrl := m.imageUrl, role := m.role
        totalBalance := st2.totals m.id
        owes := (ids.filter (fun b => ¬ b = m.id ∧ 0 < L m.id b)).map
          (fun b => (b, L m.id b))
        owedBy := (ids.filter (fun o => ¬ o = m.id ∧ 0 < L o m.id)).map
          (fun o => (o, L o m.id)) }
    { members := memberDetails, balances := balances }

/-! ## Dashboard balances (`getUserBalances`, convex/dashboard.js) -/

/-- The per-counterpart running tally of the dashboard query. -/
structure PairTally where
  owed : Amount
  owing : Amount
deriving Repr, DecidableEq

/-- The `balanceByUser` object, as an insertion-ordered association list;
`(balanceByUser[k] ??= {owed:0, owing:0})` followed by a field mutation. -/
def upsert (m : List (UserId × PairTally)) (k : UserId)
    (f : PairTally → PairTally) : List (UserId × PairTally) :=
  match m with
  | [] => [(k, f { owed := 0, owing := 0 })]
  | (k', t) :: rest => if k' = k then (k', f t) :: rest else (k', t) :: upsert rest k f

/-- The running state of `getUserBalances`. -/
structure DashState where
  youOwe : Amount
  youAreOwed : Amount
  balanceByUser : List (UserId × PairTally)

/-- One expense of the dashboard loop (convex/dashboard.js lines 25-43). -/
def dashApplyExpense (me : UserId) (st : DashState) (e : Expense) : DashState :=
  if e.paidByUserId = me then
    e.splits.foldl (fun acc s =>
      if s.userId = me ∨ s.paid = true then acc
      else
        { youOwe := acc.youOwe
          youAreOwed := acc.youAreOwed + s.amount
          balanceByUser := upsert acc.balanceByUser s.userId
            (fun t => { t with owed := t.owed + s.amount }) }) st
  else
    match e.splits.find? (fun s => s.userId = me) with
    | some sp =>
        if sp.paid then st
        else
          { youOwe := st.youOwe + sp.amount
            youAreOwed := st.youAreOwed
            balanceByUser := upsert st.balanceByUser e.paidByUserId
              (fun t => { t with owing := t.owing + sp.amount }) }
    | none => st

/-- One settlement of the dashboard loop (convex/dashboard.js lines
54-67).  Note: no clamping here. -/
def dashApplySettlement (me : UserId) (st : DashState) (s : Settlement) : DashState :=
  if s.paidByUserId = me then
    { youOwe := st.youOwe - s.amount
      youAreOwed := st.youAreOwed
      balanceByUser := upsert st.balanceByUser s.receivedByUserId
        (fun t => { t with owing := t.owing - s.amount }) }
  else
    { youOwe := st.youOwe
      youAreOwed := st.youAreOwed - s.amount
      balanceByUser := upsert st.balanceByUser s.paidByUserId
        (fun t => { t with owed := t.owed - s.amount }) }

/-- One entry of the `youOwe` / `youAreOwedBy` lists. -/
structure BalanceEntry where
  userId : UserId
  name : String
  imageUrl : Option String
  amount : Amount
deriving Repr, DecidableEq

/-- List building of convex/dashboard.js lines 70-84: iterate
`balanceByUser` in insertion order, skip zero nets, resolve the
counterpart name with an `Unknown` fallback, and push `|net|` into the
appropriate list.  Returns `(youOweList, youAreOwedByList)` before the
sort. -/
def dashRawLists (users : UserDb) (bal : List (UserId × PairTally)) :
    List BalanceEntry × List BalanceEntry :=
  bal.foldl (fun lists p =>
    let net := p.2.owed - p.2.owing
    if net = 0 then lists
    else
      let base : BalanceEntry :=
        { userId := p.1
          name := match users p.1 with | some u => u.name | none => "Unknown"
          imageUrl := (users p.1).map (fun u => u.imageUrl)
          amount := |net| }
      if 0 < net then (lists.1, lists.2 ++ [base]) else (lists.1 ++ [base], lists.2))
    ([], [])

/-- Stable insertion of one element into a list sorted by descending key:
the JavaScript comparator `(a, b) => b.amount - a.amount` under the
stable-sort guarantee of `Array.prototype.sort`. -/
def insertDescBy {α : Type} (key : α → Amount) (x : α) : List α → List α
  | [] => [x]
  | y :: ys => if key y ≤ key x then x :: y :: ys else y :: insertDescBy key x ys

/-- Stable descending sort by a rational key. -/
def sortDescBy {α : Type} (key : α → Amount) (l : List α) : List α :=
  l.foldr (insertDescBy key) []

/-- The dashboard expense filter (convex/dashboard.js lines 12-17). -/
def dashFilteredExpenses (me : UserId) (db : List Expense) : List Expense :=
  db.filter (fun e =>
    e.groupId = none ∧ (e.paidByUserId = me ∨ e.splits.any (fun s => s.userId = me)))

/-- The dashboard settlement filter (convex/dashboard.js lines 47-51). -/
def dashFilteredSettlements (me : UserId) (db : List Settlement) : List Settlement :=
  db.filter (fun s =>
    s.groupId = none ∧ (s.paidByUserId = me ∨ s.receivedByUserId = me))

/-- The state after both dashboard loops. -/
def dashState (me : UserId) (expensesDb : List Expense)
    (settlementsDb : List Settlement) : DashState :=
  (dashFilteredSettlements me settlementsDb).foldl (dashApplySettlement me)
    ((dashFilteredExpenses me expensesDb).foldl (dashApplyExpense me)
      { youOwe := 0, youAreOwed := 0, balanceByUser := [] })

/-- The `getUserBalances` response shape. -/
structure DashboardResult where
  youOwe : Amount
  youAreOwed : Amount
  totalBalance : Amount
  youOweList : List BalanceEntry
  youAreOwedByList : List BalanceEntry
deriving Repr, DecidableEq

/-- The `getUserBalances` handler (convex/dashboard.js lines 5-98). -/
def getUserBalances (users : UserDb) (me : UserId) (expensesDb : List Expense)
    (settlementsDb : List Settlement) : DashboardResult :=
  let st := dashState me expensesDb settlementsDb
  let raw := dashRawLists users st.balanceByUser
  { youOwe := st.youOwe
    youAreOwed := st.youAreOwed
    totalBalance := st.youAreOwed - st.youOwe
    youOweList := sortDescBy (fun e => e.amount) raw.1
    youAreOwedByList := sortDescBy (fun e => e.amount) raw.2 }

/-! ## Pair settlement page (`getSettlementData`, entityType "user") -/

/-- Whether an expense involves a user as payer or split participant,
the `involvesMe` / `involvesThem` checks of convex/settlements.js. -/
def involvesUser (uid : UserId) (e : Expense) : Bool :=
  decide (e.paidByUserId = uid) || e.splits.any (fun s => s.userId = uid)

/-- One expense of the pair-scope loop (convex/settlements.js lines
100-122). -/
def pairExpenseStep (me other : UserId) (t : Amount × Amount) (exp : Expense) :
    Amount × Amount :=
  if !(involvesUser me exp) || !(involvesUser other exp) then t
  else
    let t1 :=
      if exp.paidByUserId = me then
        match exp.splits.find? (fun s => s.userId = other ∧ s.paid = false) with
        | some sp => (t.1 + sp.amount, t.2)
        | none => t
      else t
    if exp.paidByUserId = other then
      match exp.splits.find? (fun s => s.userId = me ∧ s.paid = false) with
      | some sp => (t1.1, t1.2 + sp.amount)
      | none => t1
    else t1

/-- One settlement of the pair-scope loop (convex/settlements.js lines
140-148), clamping at zero. -/
def pairSettlementStep (me : UserId) (t : Amount × Amount) (st : Settlement) :
    Amount × Amount :=
  if st.paidByUserId = me then (t.1, max 0 (t.2 - st.amount))
  else (max 0 (t.1 - st.amount), t.2)

/-- The pair view response of `getSettlementData`. -/
structure PairResult where
  youAreOwed : Amount
  youOwe : Amount
  netBalance : Amount
deriving Repr, DecidableEq

/-- The two indexed expense fetches of the user branch, concatenated
(convex/settlements.js lines 81-95). -/
def pairScopeExpenses (me other : UserId) (db : List Expense) : List Expense :=
  db.filter (fun e => e.paidByUserId = me ∧ e.groupId = none) ++
    db.filter (fun e => e.paidByUserId = other ∧ e.groupId = none)

/-- The two indexed settlement fetches of the user branch, concatenated
(convex/settlements.js lines 124-138). -/
def pairScopeSettlements (me other : UserId) (db : List Settlement) : List Settlement :=
  db.filter (fun s => s.paidByUserId = me ∧ s.groupId = none) ++
    db.filter (fun s => s.paidByUserId = other ∧ s.groupId = none)

/-- The user branch of `getSettlementData` (convex/settlements.js lines
75-161). -/
def getSettlementDataUser (me other : UserId) (expensesDb : List Expense)
    (settlementsDb : List Settlement) : PairResult :=
  let t := (pairScopeExpenses me other expensesDb).foldl
    (pairExpenseStep me other) (0, 0)
  let t2 := (pairScopeSettlements me other settlementsDb).foldl
    (pairSettlementStep me) t
  { youAreOwed := t2.1, youOwe := t2.2, netBalance := t2.1 - t2.2 }

/-! ## Group settlement page (`getSettlementData`, entityType "group") -/

/-- Lookup in the per-member tally object of the group branch. -/
def alLookup (bal : List (UserId × PairTally)) (k : UserId) : Option PairTally :=
  (bal.find? (fun p => p.1 = k)).map (fun p => p.2)

/-- Field update of an existing key in the tally object. -/
def alUpdate (bal : List (UserId × PairTally)) (k : UserId)
    (f : PairTally → PairTally) : List (UserId × PairTally) :=
  bal.map (fun p => if p.1 = k then (p.1, f p.2) else p)

/-- One expense of the group-branch loop (convex/settlements.js lines
183-196).  In the branch where the current user paid, the source writes
`balances[split.userId].owed += split.amount` without checking that the
split user is a member, which throws on a non-member split; `none` models
that abort. -/
def sdGroupExpenseStep (me : UserId) (bal? : Option (List (UserId × PairTally)))
    (exp : Expense) : Option (List (UserId × PairTally)) :=
  match bal? with
  | none => none
  | some bal =>
    if exp.paidByUserId = me then
      exp.splits.foldlM (fun b s =>
        if ¬ s.userId = me ∧ s.paid = false then
          if (alLookup b s.userId).isSome then
            some (alUpdate b s.userId (fun t => { t with owed := t.owed + s.amount }))
          else none
        else some b) bal
    else if (alLookup bal exp.paidByUserId).isSome then
      match exp.splits.find? (fun s => s.userId = me ∧ s.paid = false) with
      | some sp =>
          some (alUpdate bal exp.paidByUserId
            (fun t => { t with owing := t.owing + sp.amount }))
      | none => some bal
    else some bal

/-- One settlement of the group-branch loop (convex/settlements.js lines
204-218), clamping at zero and guarded by key existence. -/
def sdGroupSettleStep (me : UserId) (bal : List (UserId × PairTally))
    (st : Settlement) : List (UserId × PairTally) :=
  let bal1 :=
    if st.paidByUserId = me ∧ (alLookup bal st.receivedByUserId).isSome then
      alUpdate bal st.receivedByUserId
        (fun t => { t with owing := max 0 (t.owing - st.amount) })
    else bal
  if st.receivedByUserId = me ∧ (alLookup bal1 st.paidByUserId).isSome then
    alUpdate bal1 st.paidByUserId
      (fun t => { t with owed := max 0 (t.owed - st.amount) })
  else bal1

/-- Display-name fallback of the group branch: `m?.name || "Unknown"`.
The JavaScript or-operator also replaces an empty name. -/
def nameOrUnknown (u : Option User) : String :=
  match u with
  | some usr => if usr.name = "" then "Unknown" else usr.name
  | none => "Unknown"

/-- One row of the group-branch balance list. -/
structure GroupSettlementEntry where
  userId : UserId
  name : String
  imageUrl : Option String
  youAreOwed : Amount
  youOwe : Amount
  netBalance : Amount
deriving Repr, DecidableEq

/-- The group branch of `getSettlementData` (convex/settlements.js lines
162-246): `none` models the thrown errors (group missing, caller not a
member, non-member split user). -/
def getSettlementDataGroup (users : UserDb) (me : UserId) (gid : ℕ)
    (groups : ℕ → Option Group) (expensesDb : List Expense)
    (settlementsDb : List Settlement) : Option (List GroupSettlementEntry) :=
  match groups gid with
  | none => none
  | some group =>
    if group.members.any (fun m => m.userId = me) then
      let expenses := expensesDb.filter (fun e => e.groupId = some gid)
      let bal0 := (group.members.filter (fun m => ¬ m.userId = me)).map
        (fun m => (m.userId, ({ owed := 0, owing := 0 } : PairTally)))
      match expenses.foldl (sdGroupExpenseStep me) (some bal0) with
      | none => none
      | some bal1 =>
        let settlements := settlementsDb.filter (fun s => s.groupId = some gid)
        let bal2 := settlements.foldl (sdGroupSettleStep me) bal1
        some (bal2.map (fun p =>
          { userId := p.1
            name := nameOrUnknown (users p.1)
            imageUrl := (users p.1).map (fun u => u.imageUrl)
            youAreOwed := p.2.owed
            youOwe := p.2.owing
            netBalance := p.2.owed - p.2.owing }))
    else none

/-! ## Settlement creation (`createSettlement`, convex/settlements.js) -/

/-- The mutation arguments of `createSettlement`. -/
structure SettlementArgs where
  amount : Amount
  paidByUserId : UserId
  receivedByUserId : UserId
  groupId : Option ℕ
deriving Repr, DecidableEq

/-- Membership of a user in a (possibly missing) group. -/
def isGroupMember (groups : ℕ → Option Group) (gid : ℕ) (uid : UserId) : Bool :=
  match groups gid with
  | some g => g.members.any (fun m => m.userId = uid)
  | none => false

/-- The `createSettlement` mutation (convex/settlements.js lines 9-57):
validation happens before the insert, so every thrown error leaves the
settlement table unchanged; on success the new record is appended. -/
def createSettlement (caller : UserId) (groups : ℕ → Option Group)
    (args : SettlementArgs) (db : List Settlement) : Except String (List Settlement) :=
  if args.amount ≤ 0 then .error "Amount must be positive"
  else if args.paidByUserId = args.receivedByUserId then
    .error "Payer and receiver cannot be the same user"
  else if ¬ caller = args.paidByUserId ∧ ¬ caller = args.receivedByUserId then
    .error "You must be either the payer or the receiver"
  else
    let newRecord : Settlement :=
      { amount := args.amount
        paidByUserId := args.paidByUserId
        receivedByUserId := args.receivedByUserId
        groupId := args.groupId }
    match args.groupId with
    | some gid =>
      match groups gid with
      | none => .error "Group not found"
      | some g =>
        if !(g.members.any (fun m => m.userId = args.paidByUserId)) ||
            !(g.members.any (fun m => m.userId = args.receivedByUserId)) then
          .error "Both parties must be members of the group"
        else .ok (db ++ [newRecord])
    | none => .ok (db ++ [newRecord])

/-! ## Group creation (`createGroup`, convex/contacts.js) -/

/-- Insertion into a JavaScript `Set`: keeps the first occurrence and the
insertion order. -/
def jsSetInsert (s : List UserId) (x : UserId) : List UserId :=
  if x ∈ s then s else s ++ [x]

/-- Whitespace trim of the group name, the `name.trim()` of the source,
written structurally on the character list. -/
def jsTrim (s : String) : String :=
  String.mk (((s.data.dropWhile Char.isWhitespace).reverse.dropWhile
    Char.isWhitespace).reverse)

/-- The `createGroup` mutation (convex/contacts.js lines 144-204): dedup
the requested members, always include the caller, validate that every
member resolves to a user, then build the member rows with the caller as
admin and everyone else as member. -/
def createGroup (caller : UserId) (users : UserDb) (name : String)
    (memberArgs : List UserId) : Except String Group :=
  if jsTrim name = "" then .error "Group name cannot be empty"
  else
    let uniqueMembers := jsSetInsert (memberArgs.foldl jsSetInsert []) caller
    match uniqueMembers.find? (fun id => (users id).isNone) with
    | some _ => .error "User not found"
    | none =>
      .ok { name := jsTrim name
            createdBy := caller
            members := uniqueMembers.map (fun id =>
              { userId := id, role := if id = caller then "admin" else "member" }) }

/-! ## Group balances component (components/group-balances.jsx) -/

/-- One enriched row of the component lists: the spread of the member
object of the counterpart (possibly missing) plus the amount. -/
structure EnrichedEntry where
  member : Option MemberBalance
  amount : Amount
deriving Repr, DecidableEq

/-- The list computation of `GroupBalances` (lines 33-52): find the row of
the current user, enrich the `owedBy` and `owes` pair lists through the
member map, and sort each descending by amount with the stable sort.
Returns `(owedByMembers, owingToMembers)`; `none` when the current user is
not part of the group. -/
def groupBalancesLists (balances : List MemberBalance) (currentUserId : UserId) :
    Option (List EnrichedEntry × List EnrichedEntry) :=
  (balances.find? (fun b => b.id = currentUserId)).map (fun me =>
    let userMap := fun uid => balances.find? (fun b => b.id = uid)
    (sortDescBy (fun e => e.amount)
        (me.owedBy.map (fun p => { member := userMap p.1, amount := p.2 })),
      sortDescBy (fun e => e.amount)
        (me.owes.map (fun p => { member := userMap p.1, amount := p.2 }))))

theorem netStep_not_touches {a b x y : UserId} (L : UserId → UserId → Amount)
    (h : ¬ touches a b x y) : netStep L a b x y = L x y := by
  unfold netStep touches at *
  by_cases hba : b ≤ a
  · simp [hba]
  · have hab : a < b := lt_of_not_ge hba
    simp only [if_neg hba]
    by_cases h1 : x = a ∧ y = b
    · exact absurd ⟨hab, Or.inl h1⟩ h
    · by_cases h2 : x = b ∧ y = a
      · exact absurd ⟨hab, Or.inr h2⟩ h
      · simp [h1, h2]

theorem netStep_cell_ab {a b : UserId} (L : UserId → UserId → Amount)
    (hab : a < b) : netStep L a b a b = max (L a b - L b a) 0 := by
  unfold netStep
  have hba : ¬ b ≤ a := not_le_of_lt hab
  have hne : ¬ (a = b ∧ b = a) := by
    rintro ⟨h1, _⟩; exact absurd h1 (ne_of_lt hab)
  simp only [if_neg hba, and_self, if_pos trivial, if_true]
  rcases lt_or_le 0 (L a b - L b a) with h | h
  · simp [h, max_eq_left (le_of_lt h)]
  · simp [not_lt.mpr h, max_eq_right h]

theorem netStep_cell_ba {a b : UserId} (L : UserId → UserId → Amount)
    (hab : a < b) : netStep L a b b a = max (L b a - L a b) 0 := by
  unfold netStep
  have hba : ¬ b ≤ a := not_le_of_lt hab
  have hne : ¬ (b = a ∧ a = b) := by
    rintro ⟨h1, _⟩; exact absurd h1 (ne_of_gt hab)
  simp only [if_neg hba, if_neg hne, and_self, if_pos trivial]
  rcases lt_or_le (L a b - L b a) 0 with h | h
  · rw [if_pos h, max_eq_left (by linarith : (0 : ℚ) ≤ L b a - L a b)]
    ring
  · rw [if_neg (not_lt.mpr h), max_eq_right (by linarith : L b a - L a b ≤ 0)]

theorem innerNet_not_touches {a x y : UserId} (bs : List UserId)
    (L : UserId → UserId → Amount)
    (h : ∀ b ∈ bs, ¬ touches a b x y) : innerNet a bs L x y = L x y := by
  induction bs generalizing L with
  | nil => rfl
  | cons b bs ih =>
      show innerNet a bs (netStep L a b) x y = L x y
      rw [ih (netStep L a b) (fun b' hb' => h b' (List.mem_cons_of_mem _ hb'))]
      exact netStep_not_touches L (h b (List.mem_cons_self _ _))

theorem innerNet_hit {a y : UserId} (bs : List UserId)
    (L : UserId → UserId → Amount) (hnd : bs.Nodup) (hy : y ∈ bs) (hay : a < y) :
    innerNet a bs L a y = max (L a y - L y a) 0 ∧
      innerNet a bs L y a = max (L y a - L a y) 0 := by
  induction bs generalizing L with
  | nil => cases hy
  | cons b bs ih =>
      have hnd' : bs.Nodup := (List.nodup_cons.mp hnd).2
      have hbnb : b ∉ bs := (List.nodup_cons.mp hnd).1
      show innerNet a bs (netStep L a b) a y = _ ∧ innerNet a bs (netStep L a b) y a = _
      by_cases hyb : y = b
      · subst hyb
        have hframe1 : ∀ b' ∈ bs, ¬ touches a b' a y := by
          intro b' hb' ⟨hab', hcase⟩
          rcases hcase with ⟨_, h2⟩ | ⟨h1, _⟩
          · exact hbnb (h2 ▸ hb')
          · exact absurd h1 (ne_of_lt hab')
        have hframe2 : ∀ b' ∈ bs, ¬ touches a b' y a := by
          intro b' hb' ⟨hab', hcase⟩
          rcases hcase with ⟨h1, _⟩ | ⟨h1, _⟩
          · exact absurd h1 (ne_of_gt hay)
          · exact hbnb (h1 ▸ hb')
        rw [innerNet_not_touches bs _ hframe1, innerNet_not_touches bs _ hframe2]
        exact ⟨netStep_cell_ab L hay, netStep_cell_ba L hay⟩
      · have hy' : y ∈ bs := by
          rcases List.mem_cons.mp hy with h | h
          · exact absurd h hyb
          · exact h
        have e1 : netStep L a b a y = L a y := by
          apply netStep_not_touches
          rintro ⟨hab', hcase⟩
          rcases hcase with ⟨_, h2⟩ | ⟨h1, _⟩
          · exact hyb h2
          · exact absurd h1 (ne_of_lt hab')
        have e2 : netStep L a b y a = L y a := by
          apply netStep_not_touches
          rintro ⟨hab', hcase⟩
          rcases hcase with ⟨h1, _⟩ | ⟨h1, _⟩
          · exact absurd h1 (ne_of_gt hay)
          · exact hyb h1
        have := ih (netStep L a b) hnd' hy'
        rw [e1, e2] at this
        exact this

theorem netPass_eq_outerNet (ids : List UserId) (L : UserId → UserId → Amount) :
    netPass ids L = outerNet ids ids L := rfl

theorem outerNet_not_touches {x y : UserId} (ids as' : List UserId)
    (L : UserId → UserId → Amount)
    (h : ∀ a ∈ as', ∀ b ∈ ids, ¬ touches a b x y) :
    outerNet ids as' L x y = L x y := by
  induction as' generalizing L with
  | nil => rfl
  | cons a as' ih =>
      show outerNet ids as' (innerNet a ids L) x y = L x y
      rw [ih (innerNet a ids L) (fun a' ha' => h a' (List.mem_cons_of_mem _ ha'))]
      exact innerNet_not_touches ids L (h a (List.mem_cons_self _ _))

theorem outerNet_hit {x y : UserId} (ids as' : List UserId)
    (L : UserId → UserId → Amount) (hndi : ids.Nodup) (hnda : as'.Nodup)
    (hx : x ∈ as') (hy : y ∈ ids) (hxy : x < y) :
    outerNet ids as' L x y = max (L x y - L y x) 0 ∧
      outerNet ids as' L y x = max (L y x - L x y) 0 := by
  induction as' generalizing L with
  | nil => cases hx
  | cons a as' ih =>
      have hnda' : as'.Nodup := (List.nodup_cons.mp hnda).2
      have hana : a ∉ as' := (List.nodup_cons.mp hnda).1
      show outerNet ids as' (innerNet a ids L) x y = _ ∧
        outerNet ids as' (innerNet a ids L) y x = _
      by_cases hax : a = x
      · subst hax
        have hcells := innerNet_hit ids L hndi hy hxy
        have hframe1 : ∀ a' ∈ as', ∀ b ∈ ids, ¬ touches a' b a y := by
          intro a' ha' b _ ⟨hab', hcase⟩
          rcases hcase with ⟨h1, _⟩ | ⟨h1, h2⟩
          · exact hana (h1 ▸ ha')
          · subst h1; subst h2
            exact absurd hxy (not_lt_of_gt hab')
        have hframe2 : ∀ a' ∈ as', ∀ b ∈ ids, ¬ touches a' b y a := by
          intro a' ha' b _ ⟨hab', hcase⟩
          rcases hcase with ⟨h1, h2⟩ | ⟨h1, h2⟩
          · subst h1; subst h2
            exact absurd hxy (not_lt_of_gt hab')
          · exact hana (h2 ▸ ha')
        rw [outerNet_not_touches ids as' _ hframe1,
          outerNet_not_touches ids as' _ hframe2]
        exact hcells
      · have hx' : x ∈ as' := by
          rcases List.mem_cons.mp hx with h | h
          · exact absurd h.symm hax
          · exact h
        have e1 : innerNet a ids L x y = L x y := by
          apply innerNet_not_touches
          intro b _ ⟨hab', hcase⟩
          rcases hcase with ⟨h1, _⟩ | ⟨h1, h2⟩
          · exact hax h1.symm
          · subst h1; subst h2
            exact absurd hxy (not_lt_of_gt hab')
        have e2 : innerNet a ids L y x = L y x := by
          apply innerNet_not_touches
          intro b _ ⟨hab', hcase⟩
          rcases hcase with ⟨h1, h2⟩ | ⟨h1, h2⟩
          · subst h1; subst h2
            exact absurd hxy (not_lt_of_gt hab')
          · exact hax h2.symm
        have := ih (innerNet a ids L) hnda' hx'
        rw [e1, e2] at this
        exact this

/-- Characterization of the netting pass on a member pair: the resulting
cell is the positive part of the raw directional difference. -/
theorem netPass_eval {x y : UserId} (ids : List UserId)
    (L : UserId → UserId → Amount) (hnd : ids.Nodup)
    (hx : x ∈ ids) (hy : y ∈ ids) (hxy : x ≠ y) :
    netPass ids L x y = max (L x y - L y x) 0 := by
  rw [netPass_eq_outerNet]
  rcases lt_or_gt_of_ne hxy with h | h
  · exact (outerNet_hit ids ids L hnd hnd hx hy h).1
  · exact (outerNet_hit ids ids L hnd hnd hy hx h).2

/-- Cells off the member pairs (diagonal or with a coordinate outside the
member list) are left untouched by the netting pass. -/
theorem netPass_frame {x y : UserId} (ids : List UserId)
    (L : UserId → UserId → Amount)
    (h : x = y ∨ x ∉ ids ∨ y ∉ ids) : netPass ids L x y = L x y := by
  rw [netPass_eq_outerNet]
  apply outerNet_not_touches
  intro a ha b hb ⟨hab, hcase⟩
  rcases h with h | h | h
  · subst h
    rcases hcase with ⟨h1, h2⟩ | ⟨h1, h2⟩
    · exact absurd (h1.symm.trans h2) (ne_of_lt hab)
    · exact absurd (h1.symm.trans h2) (ne_of_gt hab)
  · rcases hcase with ⟨h1, _⟩ | ⟨h1, _⟩
    · exact h (h1 ▸ ha)
    · exact h (h1 ▸ hb)
  · rcases hcase with ⟨_, h2⟩ | ⟨_, h2⟩
    · exact h (h2 ▸ hb)
    · exact h (h2 ▸ ha)

/-- C1: after the pairwise netting pass of `getGroupExpenses`, for every
unordered pair of distinct group members both directional cells are
non-negative, at most one is non-zero (each positive cell forces the
opposite cell to zero), and a positive cell equals the absolute difference
of the two raw directional totals of the pair. -/
theorem C1_netting_antisymmetry (ids : List UserId)
    (L : UserId → UserId → Amount) (hnd : ids.Nodup)
    (a b : UserId) (ha : a ∈ ids) (hb : b ∈ ids) (hab : a ≠ b) :
    0 ≤ netPass ids L a b ∧ 0 ≤ netPass ids L b a ∧
      (0 < netPass ids L a b → netPass ids L b a = 0) ∧
      (0 < netPass ids L b a → netPass ids L a b = 0) ∧
      (0 < netPass ids L a b → netPass ids L a b = |L a b - L b a|) ∧
      (0 < netPass ids L b a → netPass ids L b a = |L a b - L b a|) := by
  have e1 := netPass_eval ids L hnd ha hb hab
  have e2 := netPass_eval ids L hnd hb ha (Ne.symm hab)
  rw [e1, e2]
  refine ⟨le_max_right _ _, le_max_right _ _, ?_, ?_, ?_, ?_⟩
  · intro hlt
    have hdpos : 0 < L a b - L b a := by
      by_contra hc
      push_neg at hc
      rw [max_eq_right hc] at hlt
      exact lt_irrefl 0 hlt
    exact max_eq_right (by linarith)
  · intro hlt
    have hdpos : 0 < L b a - L a b := by
      by_contra hc
      push_neg at hc
      rw [max_eq_right hc] at hlt
      exact lt_irrefl 0 hlt
    exact max_eq_right (by linarith)
  · intro hlt
    have hdpos : 0 < L a b - L b a := by
      by_contra hc
      push_neg at hc
      rw [max_eq_right hc] at hlt
      exact lt_irrefl 0 hlt
    rw [max_eq_left (le_of_lt hdpos), abs_of_pos hdpos]
  · intro hlt
    have hdpos : 0 < L b a - L a b := by
      by_contra hc
      push_neg at hc
      rw [max_eq_right hc] at hlt
      exact lt_irrefl 0 hlt
    rw [max_eq_left (le_of_lt hdpos), abs_of_neg (by linarith : L a b - L b a < 0)]
    ring

/-- Witness for C1 at a concrete two-member ledger. -/
theorem C1_netting_antisymmetry_witness :
    ([0, 1] : List UserId).Nodup ∧ (0 : UserId) ∈ ([0, 1] : List UserId) ∧
      (1 : UserId) ∈ ([0, 1] : List UserId) ∧ (0 : UserId) ≠ 1 ∧
      (0 ≤ netPass [0, 1] (fun a b => if a = 0 ∧ b = 1 then 5 else if a = 1 ∧ b = 0 then 3 else 0) 0 1 ∧
        0 ≤ netPass [0, 1] (fun a b => if a = 0 ∧ b = 1 then 5 else if a = 1 ∧ b = 0 then 3 else 0) 1 0 ∧
        (0 < netPass [0, 1] (fun a b => if a = 0 ∧ b = 1 then 5 else if a = 1 ∧ b = 0 then 3 else 0) 0 1 →
          netPass [0, 1] (fun a b => if a = 0 ∧ b = 1 then 5 else if a = 1 ∧ b = 0 then 3 else 0) 1 0 = 0) ∧
        (0 < netPass [0, 1] (fun a b => if a = 0 ∧ b = 1 then 5 else if a = 1 ∧ b = 0 then 3 else 0) 1 0 →
          netPass [0, 1] (fun a b => if a = 0 ∧ b = 1 then 5 else if a = 1 ∧ b = 0 then 3 else 0) 0 1 = 0) ∧
        (0 < netPass [0, 1] (fun a b => if a = 0 ∧ b = 1 then 5 else if a = 1 ∧ b = 0 then 3 else 0) 0 1 →
          netPass [0, 1] (fun a b => if a = 0 ∧ b = 1 then 5 else if a = 1 ∧ b = 0 then 3 else 0) 0 1 =
            |(fun a b => if a = 0 ∧ b = 1 then (5 : Amount) else if a = 1 ∧ b = 0 then 3 else 0) 0 1 -
              (fun a b => if a = 0 ∧ b = 1 then (5 : Amount) else if a = 1 ∧ b = 0 then 3 else 0) 1 0|) ∧
        (0 < netPass [0, 1] (fun a b => if a = 0 ∧ b = 1 then 5 else if a = 1 ∧ b = 0 then 3 else 0) 1 0 →
          netPass [0, 1] (fun a b => if a = 0 ∧ b = 1 then 5 else if a = 1 ∧ b = 0 then 3 else 0) 1 0 =
            |(fun a b => if a = 0 ∧ b = 1 then (5 : Amount) else if a = 1 ∧ b = 0 then 3 else 0) 0 1 -
              (fun a b => if a = 0 ∧ b = 1 then (5 : Amount) else if a = 1 ∧ b = 0 then 3 else 0) 1 0|)) :=
  ⟨by decide, by decide, by decide, by decide,
    C1_netting_antisymmetry [0, 1]
      (fun a b => if a = 0 ∧ b = 1 then 5 else if a = 1 ∧ b = 0 then 3 else 0)
      (by decide) 0 1 (by decide) (by decide) (by decide)⟩

/-- C2: the pairwise netting pass is idempotent: applying it to its own
output yields an identical ledger. -/
theorem C2_netting_idempotent (ids : List UserId) (L : UserId → UserId → Amount)
    (hnd : ids.Nodup) :
    netPass ids (netPass ids L) = netPass ids L := by
  funext x y
  by_cases hmem : x ∈ ids ∧ y ∈ ids ∧ ¬ x = y
  · obtain ⟨hx, hy, hxy⟩ := hmem
    rw [netPass_eval ids _ hnd hx hy hxy, netPass_eval ids L hnd hx hy hxy,
      netPass_eval ids L hnd hy hx (fun h => hxy h.symm)]
    rcases le_or_lt (L x y - L y x) 0 with h | h
    · rw [max_eq_right h, max_eq_left (by linarith : (0 : ℚ) ≤ L y x - L x y)]
      exact max_eq_right (by linarith)
    · rw [max_eq_left (le_of_lt h), max_eq_right (by linarith : L y x - L x y ≤ 0),
        sub_zero]
      exact max_eq_left (le_of_lt h)
  · have h' : x = y ∨ x ∉ ids ∨ y ∉ ids := by tauto
    rw [netPass_frame ids _ h']

/-- Witness for C2 at a concrete three-member ledger. -/
theorem C2_netting_idempotent_witness :
    ([0, 1, 2] : List UserId).Nodup ∧
      netPass [0, 1, 2]
          (netPass [0, 1, 2]
            (fun a b => if a = 1 ∧ b = 0 then 7 else if a = 0 ∧ b = 1 then 2 else 0)) =
        netPass [0, 1, 2]
          (fun a b => if a = 1 ∧ b = 0 then 7 else if a = 0 ∧ b = 1 then 2 else 0) :=
  ⟨by decide,
    C2_netting_idempotent [0, 1, 2]
      (fun a b => if a = 1 ∧ b = 0 then 7 else if a = 0 ∧ b = 1 then 2 else 0)
      (by decide)⟩

theorem sum_bump (S : Finset UserId) (f : UserId → Amount) (k : UserId)
    (a : Amount) (hk : k ∈ S) :
    ∑ m ∈ S, bump f k a m = (∑ m ∈ S, f m) + a := by
  have h : ∀ m ∈ S, bump f k a m = f m + (if m = k then a else 0) := by
    intro m _
    unfold bump
    by_cases hmk : m = k
    · simp [hmk]
    · simp [hmk]
  rw [Finset.sum_congr rfl h, Finset.sum_add_distrib,
    Finset.sum_ite_eq' S k (fun _ => a), if_pos hk]

theorem sum_bump2_col (S : Finset UserId) (L : UserId → UserId → Amount)
    (i j : UserId) (a : Amount) (hi : i ∈ S) :
    ∑ d ∈ S, bump2 L i j a d j = (∑ d ∈ S, L d j) + a := by
  have h : ∀ d ∈ S, bump2 L i j a d j = L d j + (if d = i then a else 0) := by
    intro d _
    unfold bump2
    by_cases hdi : d = i
    · simp [hdi]
    · simp [hdi]
  rw [Finset.sum_congr rfl h, Finset.sum_add_distrib,
    Finset.sum_ite_eq' S i (fun _ => a), if_pos hi]

theorem ledger_col_sum_foldl (payer : UserId) (splits : List Split)
    (S : Finset UserId) (st : GroupLedgers)
    (h : ∀ s ∈ splits, s.userId ∈ S) :
    ∑ d ∈ S, (splits.foldl (applySplit payer) st).ledger d payer =
      (∑ d ∈ S, st.ledger d payer) +
        ((splits.filter (fun s => ¬ (s.userId = payer ∨ s.paid = true))).map
          Split.amount).sum := by
  induction splits generalizing st with
  | nil => simp
  | cons s rest ih =>
    simp only [List.foldl_cons]
    rw [ih (applySplit payer st s) (fun s' hs' => h s' (List.mem_cons_of_mem _ hs'))]
    by_cases hg : s.userId = payer ∨ s.paid = true
    · unfold applySplit
      rw [if_pos hg, List.filter_cons]
      simp [hg]
    · have hmem : s.userId ∈ S := h s (List.mem_cons_self _ _)
      unfold applySplit
      rw [if_neg hg]
      simp only
      rw [sum_bump2_col S st.ledger s.userId payer s.amount hmem, List.filter_cons]
      simp [hg, add_assoc]

theorem totals_sum_applySplit (payer : UserId) (S : Finset UserId)
    (st : GroupLedgers) (s : Split) (hp : payer ∈ S) (hd : s.userId ∈ S) :
    ∑ m ∈ S, (applySplit payer st s).totals m = ∑ m ∈ S, st.totals m := by
  unfold applySplit
  by_cases hg : s.userId = payer ∨ s.paid = true
  · rw [if_pos hg]
  · rw [if_neg hg]
    simp only
    rw [sum_bump S _ s.userId (-s.amount) hd, sum_bump S st.totals payer s.amount hp]
    ring

theorem totals_sum_splits (payer : UserId) (S : Finset UserId)
    (splits : List Split) (st : GroupLedgers) (hp : payer ∈ S)
    (hs : ∀ s ∈ splits, s.userId ∈ S) :
    ∑ m ∈ S, (splits.foldl (applySplit payer) st).totals m =
      ∑ m ∈ S, st.totals m := by
  induction splits generalizing st with
  | nil => rfl
  | cons s rest ih =>
    simp only [List.foldl_cons]
    rw [ih (applySplit payer st s) (fun s' hs' => hs s' (List.mem_cons_of_mem _ hs'))]
    exact totals_sum_applySplit payer S st s hp (hs s (List.mem_cons_self _ _))

theorem totals_sum_applyExpense (S : Finset UserId) (st : GroupLedgers)
    (e : Expense) (hp : e.paidByUserId ∈ S) (hs : ∀ s ∈ e.splits, s.userId ∈ S) :
    ∑ m ∈ S, (applyExpense st e).totals m = ∑ m ∈ S, st.totals m := by
  unfold applyExpense
  exact totals_sum_splits e.paidByUserId S e.splits st hp hs

theorem totals_sum_applySettlementGroup (S : Finset UserId) (st : GroupLedgers)
    (s : Settlement) (hp : s.paidByUserId ∈ S) (hr : s.receivedByUserId ∈ S) :
    ∑ m ∈ S, (applySettlementGroup st s).totals m = ∑ m ∈ S, st.totals m := by
  unfold applySettlementGroup
  simp only
  rw [sum_bump S _ s.receivedByUserId (-s.amount) hr,
    sum_bump S st.totals s.paidByUserId s.amount hp]
  ring

theorem totals_sum_expenses (S : Finset UserId) (st : GroupLedgers)
    (expenses : List Expense)
    (h : ∀ e ∈ expenses, e.paidByUserId ∈ S ∧ ∀ s ∈ e.splits, s.userId ∈ S) :
    ∑ m ∈ S, (expenses.foldl applyExpense st).totals m = ∑ m ∈ S, st.totals m := by
  induction expenses generalizing st with
  | nil => rfl
  | cons e rest ih =>
    simp only [List.foldl_cons]
    rw [ih (applyExpense st e) (fun e' he' => h e' (List.mem_cons_of_mem _ he'))]
    have he := h e (List.mem_cons_self _ _)
    exact totals_sum_applyExpense S st e he.1 he.2

theorem totals_sum_settlements (S : Finset UserId) (st : GroupLedgers)
    (settlements : List Settlement)
    (h : ∀ s ∈ settlements, s.paidByUserId ∈ S ∧ s.receivedByUserId ∈ S) :
    ∑ m ∈ S, (settlements.foldl applySettlementGroup st).totals m =
      ∑ m ∈ S, st.totals m := by
  induction settlements generalizing st with
  | nil => rfl
  | cons s rest ih =>
    simp only [List.foldl_cons]
    rw [ih (applySettlementGroup st s) (fun s' hs' => h s' (List.mem_cons_of_mem _ hs'))]
    have hs := h s (List.mem_cons_self _ _)
    exact totals_sum_applySettlementGroup S st s hs.1 hs.2

/-- C4: for a single group expense applied to the zero ledgers, the sum of
the directional debts recorded toward the payer equals the sum of the
outstanding split amounts; and over any expense and settlement sequence
whose payers, debtors and settlement parties are all group members, the
per-member signed totals sum to zero. -/
theorem C4_zero_sum_conservation (ids : List UserId) (e : Expense)
    (expenses : List Expense) (settlements : List Settlement)
    (he : ∀ s ∈ e.splits, s.userId ∈ ids)
    (hes : ∀ ex ∈ expenses, ex.paidByUserId ∈ ids ∧ ∀ s ∈ ex.splits, s.userId ∈ ids)
    (hss : ∀ st ∈ settlements, st.paidByUserId ∈ ids ∧ st.receivedByUserId ∈ ids) :
    (∑ d ∈ ids.toFinset, (applyExpense GroupLedgers.init e).ledger d e.paidByUserId =
      ((e.splits.filter
        (fun s => ¬ (s.userId = e.paidByUserId ∨ s.paid = true))).map
          Split.amount).sum) ∧
    ∑ m ∈ ids.toFinset,
        (settlements.foldl applySettlementGroup
          (expenses.foldl applyExpense GroupLedgers.init)).totals m = 0 := by
  constructor
  · unfold applyExpense
    rw [ledger_col_sum_foldl e.paidByUserId e.splits ids.toFinset GroupLedgers.init
      (fun s hs => List.mem_toFinset.mpr (he s hs))]
    simp [GroupLedgers.init]
  · rw [totals_sum_settlements ids.toFinset _ settlements
      (fun s hs => ⟨List.mem_toFinset.mpr (hss s hs).1,
        List.mem_toFinset.mpr (hss s hs).2⟩)]
    rw [totals_sum_expenses ids.toFinset _ expenses
      (fun ex hex => ⟨List.mem_toFinset.mpr (hes ex hex).1,
        fun s hs => List.mem_toFinset.mpr ((hes ex hex).2 s hs)⟩)]
    simp [GroupLedgers.init]

/-- Witness for C4 at a concrete three-member group with one expense and
one settlement. -/
theorem C4_zero_sum_conservation_witness :
    (∀ s ∈ (Expense.mk 0 100 [Split.mk 1 50 false, Split.mk 2 30 false, Split.mk 0 20 true] (some 0)).splits,
        s.userId ∈ ([0, 1, 2] : List UserId)) ∧
    (∀ ex ∈ [Expense.mk 0 100 [Split.mk 1 50 false, Split.mk 2 30 false, Split.mk 0 20 true] (some 0)],
        ex.paidByUserId ∈ ([0, 1, 2] : List UserId) ∧
          ∀ s ∈ ex.splits, s.userId ∈ ([0, 1, 2] : List UserId)) ∧
    (∀ st ∈ [Settlement.mk 10 1 0 (some 0)],
        st.paidByUserId ∈ ([0, 1, 2] : List UserId) ∧
          st.receivedByUserId ∈ ([0, 1, 2] : List UserId)) ∧
    ((∑ d ∈ ([0, 1, 2] : List UserId).toFinset,
        (applyExpense GroupLedgers.init
          (Expense.mk 0 100 [Split.mk 1 50 false, Split.mk 2 30 false, Split.mk 0 20 true] (some 0))).ledger d
          (Expense.mk 0 100 [Split.mk 1 50 false, Split.mk 2 30 false, Split.mk 0 20 true] (some 0)).paidByUserId =
        (((Expense.mk 0 100 [Split.mk 1 50 false, Split.mk 2 30 false, Split.mk 0 20 true] (some 0)).splits.filter
          (fun s => ¬ (s.userId = (Expense.mk 0 100 [Split.mk 1 50 false, Split.mk 2 30 false, Split.mk 0 20 true] (some 0)).paidByUserId ∨ s.paid = true))).map
            Split.amount).sum) ∧
      ∑ m ∈ ([0, 1, 2] : List UserId).toFinset,
          ([Settlement.mk 10 1 0 (some 0)].foldl applySettlementGroup
            ([Expense.mk 0 100 [Split.mk 1 50 false, Split.mk 2 30 false, Split.mk 0 20 true] (some 0)].foldl
              applyExpense GroupLedgers.init)).totals m = 0) :=
  ⟨by decide, by decide, by decide,
    C4_zero_sum_conservation [0, 1, 2]
      (Expense.mk 0 100 [Split.mk 1 50 false, Split.mk 2 30 false, Split.mk 0 20 true] (some 0))
      [Expense.mk 0 100 [Split.mk 1 50 false, Split.mk 2 30 false, Split.mk 0 20 true] (some 0)]
      [Settlement.mk 10 1 0 (some 0)]
      (by decide) (by decide) (by decide)⟩

theorem pairExpenseStep_shape (me other : UserId) (t : Amount × Amount) (e : Expense) :
    pairExpenseStep me other t e = t ∨
      (∃ sp ∈ e.splits, pairExpenseStep me other t e = (t.1 + sp.amount, t.2)) ∨
      (∃ sp ∈ e.splits, pairExpenseStep me other t e = (t.1, t.2 + sp.amount)) ∨
      (∃ sp1 ∈ e.splits, ∃ sp2 ∈ e.splits,
        pairExpenseStep me other t e = (t.1 + sp1.amount, t.2 + sp2.amount)) := by
  simp only [pairExpenseStep]
  split
  · left; rfl
  · split
    · split
      · rename_i sp2 hsp2
        split
        · split
          · rename_i sp1 hsp1
            right; right; right
            exact ⟨sp1, List.mem_of_find?_eq_some hsp1, sp2,
              List.mem_of_find?_eq_some hsp2, rfl⟩
          · right; right; left
            exact ⟨sp2, List.mem_of_find?_eq_some hsp2, rfl⟩
        · right; right; left
          exact ⟨sp2, List.mem_of_find?_eq_some hsp2, rfl⟩
      · split
        · split
          · rename_i sp1 hsp1
            right; left
            exact ⟨sp1, List.mem_of_find?_eq_some hsp1, rfl⟩
          · left; rfl
        · left; rfl
    · split
      · split
        · rename_i sp1 hsp1
          right; left
          exact ⟨sp1, List.mem_of_find?_eq_some hsp1, rfl⟩
        · left; rfl
      · left; rfl

theorem pairExpenseStep_nonneg (me other : UserId) (t : Amount × Amount)
    (e : Expense) (hs : ∀ s ∈ e.splits, 0 ≤ s.amount)
    (h1 : 0 ≤ t.1) (h2 : 0 ≤ t.2) :
    0 ≤ (pairExpenseStep me other t e).1 ∧ 0 ≤ (pairExpenseStep me other t e).2 := by
  rcases pairExpenseStep_shape me other t e with h | ⟨sp, hsp, h⟩ | ⟨sp, hsp, h⟩ |
    ⟨sp1, hsp1, sp2, hsp2, h⟩ <;> rw [h]
  · exact ⟨h1, h2⟩
  · refine ⟨?_, h2⟩
    have := hs sp hsp
    show 0 ≤ t.1 + sp.amount
    linarith
  · refine ⟨h1, ?_⟩
    have := hs sp hsp
    show 0 ≤ t.2 + sp.amount
    linarith
  · have ha := hs sp1 hsp1
    have hb := hs sp2 hsp2
    refine ⟨?_, ?_⟩
    · show 0 ≤ t.1 + sp1.amount
      linarith
    · show 0 ≤ t.2 + sp2.amount
      linarith

theorem pairFold_expenses_nonneg (me other : UserId) (es : List Expense) :
    ∀ t : Amount × Amount, (∀ e ∈ es, ∀ s ∈ e.splits, 0 ≤ s.amount) →
      0 ≤ t.1 → 0 ≤ t.2 →
      0 ≤ (es.foldl (pairExpenseStep me other) t).1 ∧
        0 ≤ (es.foldl (pairExpenseStep me other) t).2 := by
  induction es with
  | nil => intro t _ h1 h2; exact ⟨h1, h2⟩
  | cons e rest ih =>
    intro t hs h1 h2
    simp only [List.foldl_cons]
    have := pairExpenseStep_nonneg me other t e (hs e (List.mem_cons_self _ _)) h1 h2
    exact ih (pairExpenseStep me other t e)
      (fun e' he' => hs e' (List.mem_cons_of_mem _ he')) this.1 this.2

theorem pairSettlementStep_nonneg (me : UserId) (t : Amount × Amount)
    (st : Settlement) (h1 : 0 ≤ t.1) (h2 : 0 ≤ t.2) :
    0 ≤ (pairSettlementStep me t st).1 ∧ 0 ≤ (pairSettlementStep me t st).2 := by
  unfold pairSettlementStep
  split
  · exact ⟨h1, le_max_left _ _⟩
  · exact ⟨le_max_left _ _, h2⟩

theorem pairFold_settlements_nonneg (me : UserId) (ss : List Settlement) :
    ∀ t : Amount × Amount, 0 ≤ t.1 → 0 ≤ t.2 →
      0 ≤ (ss.foldl (pairSettlementStep me) t).1 ∧
        0 ≤ (ss.foldl (pairSettlementStep me) t).2 := by
  induction ss with
  | nil => intro t h1 h2; exact ⟨h1, h2⟩
  | cons s rest ih =>
    intro t h1 h2
    simp only [List.foldl_cons]
    have := pairSettlementStep_nonneg me t s h1 h2
    exact ih (pairSettlementStep me t s) this.1 this.2

theorem mem_pairScopeExpenses (me other : UserId) (db : List Expense)
    (e : Expense) (h : e ∈ pairScopeExpenses me other db) : e ∈ db := by
  unfold pairScopeExpenses at h
  rcases List.mem_append.mp h with h' | h' <;> exact (List.mem_filter.mp h').1

theorem alUpdate_nonneg (bal : List (UserId × PairTally)) (k : UserId)
    (f : PairTally → PairTally)
    (hb : ∀ p ∈ bal, 0 ≤ p.2.owed ∧ 0 ≤ p.2.owing)
    (hf : ∀ t : PairTally, 0 ≤ t.owed ∧ 0 ≤ t.owing →
      0 ≤ (f t).owed ∧ 0 ≤ (f t).owing) :
    ∀ p ∈ alUpdate bal k f, 0 ≤ p.2.owed ∧ 0 ≤ p.2.owing := by
  intro p hp
  unfold alUpdate at hp
  rcases List.mem_map.mp hp with ⟨q, hq, hpq⟩
  by_cases h : q.1 = k
  · rw [if_pos h] at hpq
    rw [← hpq]
    exact hf q.2 (hb q hq)
  · rw [if_neg h] at hpq
    rw [← hpq]
    exact hb q hq

theorem foldlM_owed_nonneg (me : UserId) (splits : List Split) :
    ∀ bal : List (UserId × PairTally),
      (∀ s ∈ splits, 0 ≤ s.amount) →
      (∀ p ∈ bal, 0 ≤ p.2.owed ∧ 0 ≤ p.2.owing) →
      ∀ bal', (splits.foldlM (fun b s =>
          if ¬ s.userId = me ∧ s.paid = false then
            if (alLookup b s.userId).isSome then
              some (alUpdate b s.userId (fun t => { t with owed := t.owed + s.amount }))
            else none
          else some b) bal) = some bal' →
        ∀ p ∈ bal', 0 ≤ p.2.owed ∧ 0 ≤ p.2.owing := by
  induction splits with
  | nil =>
    intro bal _ hb bal' h
    simp only [List.foldlM_nil] at h
    cases h
    exact hb
  | cons s rest ih =>
    intro bal hs hb bal' h
    rw [List.foldlM_cons] at h
    by_cases hc : ¬ s.userId = me ∧ s.paid = false
    · rw [if_pos hc] at h
      by_cases hl : (alLookup bal s.userId).isSome = true
      · rw [if_pos hl] at h
        simp only [Option.bind_eq_bind, Option.some_bind] at h
        exact ih (alUpdate bal s.userId
            (fun t => { t with owed := t.owed + s.amount }))
          (fun s' hs' => hs s' (List.mem_cons_of_mem _ hs'))
          (alUpdate_nonneg bal s.userId
            (fun t => { t with owed := t.owed + s.amount }) hb (fun t ht =>
              ⟨add_nonneg ht.1 (hs s (List.mem_cons_self _ _)), ht.2⟩)) bal' h
      · rw [if_neg hl] at h
        simp only [Option.bind_eq_bind, Option.none_bind] at h
        cases h
    · rw [if_neg hc] at h
      simp only [Option.bind_eq_bind, Option.some_bind] at h
      exact ih bal (fun s' hs' => hs s' (List.mem_cons_of_mem _ hs')) hb bal' h

theorem sdGroupExpenseStep_nonneg (me : UserId) (bal : List (UserId × PairTally))
    (e : Expense) (hs : ∀ s ∈ e.splits, 0 ≤ s.amount)
    (hb : ∀ p ∈ bal, 0 ≤ p.2.owed ∧ 0 ≤ p.2.owing) :
    ∀ bal', sdGroupExpenseStep me (some bal) e = some bal' →
      ∀ p ∈ bal', 0 ≤ p.2.owed ∧ 0 ≤ p.2.owing := by
  intro bal' h
  simp only [sdGroupExpenseStep] at h
  by_cases hme : e.paidByUserId = me
  · rw [if_pos hme] at h
    exact foldlM_owed_nonneg me e.splits bal hs hb bal' h
  · rw [if_neg hme] at h
    by_cases hl : (alLookup bal e.paidByUserId).isSome = true
    · rw [if_pos hl] at h
      cases hf : e.splits.find? (fun s => s.userId = me ∧ s.paid = false) with
      | some sp =>
        rw [hf] at h
        injection h with h
        rw [← h]
        exact alUpdate_nonneg bal e.paidByUserId _ hb (fun t ht =>
          ⟨ht.1, add_nonneg ht.2 (hs sp (List.mem_of_find?_eq_some hf))⟩)
      | none =>
        rw [hf] at h
        injection h with h
        rw [← h]
        exact hb
    · rw [if_neg hl] at h
      injection h with h
      rw [← h]
      exact hb

theorem sdGroupSettleStep_nonneg (me : UserId) (bal : List (UserId × PairTally))
    (st : Settlement) (hb : ∀ p ∈ bal, 0 ≤ p.2.owed ∧ 0 ≤ p.2.owing) :
    ∀ p ∈ sdGroupSettleStep me bal st, 0 ≤ p.2.owed ∧ 0 ≤ p.2.owing := by
  simp only [sdGroupSettleStep]
  generalize hbal1 : (if st.paidByUserId = me ∧ (alLookup bal st.receivedByUserId).isSome then
      alUpdate bal st.receivedByUserId
        (fun t => { t with owing := max 0 (t.owing - st.amount) })
    else bal) = bal1
  have step1 : ∀ p ∈ bal1, 0 ≤ p.2.owed ∧ 0 ≤ p.2.owing := by
    rw [← hbal1]
    by_cases c1 : st.paidByUserId = me ∧ (alLookup bal st.receivedByUserId).isSome = true
    · rw [if_pos c1]
      exact alUpdate_nonneg bal _ _ hb (fun t ht => ⟨ht.1, le_max_left _ _⟩)
    · rw [if_neg c1]
      exact hb
  by_cases c2 : st.receivedByUserId = me ∧ (alLookup bal1 st.paidByUserId).isSome = true
  · rw [if_pos c2]
    exact alUpdate_nonneg bal1 _ _ step1 (fun t ht => ⟨le_max_left _ _, ht.2⟩)
  · rw [if_neg c2]
    exact step1

theorem sdSettle_fold_nonneg (me : UserId) (ss : List Settlement) :
    ∀ bal : List (UserId × PairTally),
      (∀ p ∈ bal, 0 ≤ p.2.owed ∧ 0 ≤ p.2.owing) →
      ∀ p ∈ ss.foldl (sdGroupSettleStep me) bal, 0 ≤ p.2.owed ∧ 0 ≤ p.2.owing := by
  induction ss with
  | nil => intro bal hb; exact hb
  | cons s rest ih =>
    intro bal hb
    simp only [List.foldl_cons]
    exact ih (sdGroupSettleStep me bal s) (sdGroupSettleStep_nonneg me bal s hb)

theorem sdExpenseFold_none (me : UserId) (expenses : List Expense) :
    expenses.foldl (sdGroupExpenseStep me) none = none := by
  induction expenses with
  | nil => rfl
  | cons e rest ih =>
    simp only [List.foldl_cons]
    exact ih

theorem sdExpense_fold_nonneg (me : UserId) (expenses : List Expense) :
    ∀ bal : List (UserId × PairTally),
      (∀ e ∈ expenses, ∀ s ∈ e.splits, 0 ≤ s.amount) →
      (∀ p ∈ bal, 0 ≤ p.2.owed ∧ 0 ≤ p.2.owing) →
      ∀ bal', expenses.foldl (sdGroupExpenseStep me) (some bal) = some bal' →
        ∀ p ∈ bal', 0 ≤ p.2.owed ∧ 0 ≤ p.2.owing := by
  induction expenses with
  | nil =>
    intro bal _ hb bal' h
    cases h
    exact hb
  | cons e rest ih =>
    intro bal hsplit hb bal' h
    simp only [List.foldl_cons] at h
    cases hstep : sdGroupExpenseStep me (some bal) e with
    | none =>
      rw [hstep, sdExpenseFold_none] at h
      cases h
    | some bal1 =>
      rw [hstep] at h
      exact ih bal1 (fun e' he' => hsplit e' (List.mem_cons_of_mem _ he'))
        (sdGroupExpenseStep_nonneg me bal e (hsplit e (List.mem_cons_self _ _))
          hb bal1 hstep) bal' h

theorem dashRawLists_nonneg (users : UserDb) (bal : List (UserId × PairTally)) :
    (∀ en ∈ (dashRawLists users bal).1, 0 ≤ en.amount) ∧
      (∀ en ∈ (dashRawLists users bal).2, 0 ≤ en.amount) := by
  unfold dashRawLists
  suffices h : ∀ init : List BalanceEntry × List BalanceEntry,
      (∀ en ∈ init.1, 0 ≤ en.amount) → (∀ en ∈ init.2, 0 ≤ en.amount) →
      (∀ en ∈ (bal.foldl (fun lists p =>
          let net := p.2.owed - p.2.owing
          if net = 0 then lists
          else
            let base : BalanceEntry :=
              { userId := p.1
                name := match users p.1 with | some u => u.name | none => "Unknown"
                imageUrl := (users p.1).map (fun u => u.imageUrl)
                amount := |net| }
            if 0 < net then (lists.1, lists.2 ++ [base])
            else (lists.1 ++ [base], lists.2)) init).1, 0 ≤ en.amount) ∧
        (∀ en ∈ (bal.foldl (fun lists p =>
          let net := p.2.owed - p.2.owing
          if net = 0 then lists
          else
            let base : BalanceEntry :=
              { userId := p.1
                name := match users p.1 with | some u => u.name | none => "Unknown"
                imageUrl := (users p.1).map (fun u => u.imageUrl)
                amount := |net| }
            if 0 < net then (lists.1, lists.2 ++ [base])
            else (lists.1 ++ [base], lists.2)) init).2, 0 ≤ en.amount) by
    exact h ([], []) (by intro en h'; cases h') (by intro en h'; cases h')
  induction bal with
  | nil => intro init h1 h2; exact ⟨h1, h2⟩
  | cons p rest ih =>
    intro init h1 h2
    simp only [List.foldl_cons]
    by_cases hz : p.2.owed - p.2.owing = 0
    · simp only [if_pos hz]
      exact ih init h1 h2
    · simp only [if_neg hz]
      by_cases hpos : 0 < p.2.owed - p.2.owing
      · simp only [if_pos hpos]
        refine ih _ h1 ?_
        intro en hen
        rcases List.mem_append.mp hen with h' | h'
        · exact h2 en h'
        · rcases List.mem_singleton.mp h' with rfl
          exact abs_nonneg _
      · simp only [if_neg hpos]
        refine ih _ ?_ h2
        intro en hen
        rcases List.mem_append.mp hen with h' | h'
        · exact h1 en h'
        · rcases List.mem_singleton.mp h' with rfl
          exact abs_nonneg _

theorem insertDescBy_perm {α : Type} (key : α → Amount) (x : α) (l : List α) :
    (insertDescBy key x l).Perm (x :: l) := by
  induction l with
  | nil => exact List.Perm.refl _
  | cons y ys ih =>
    unfold insertDescBy
    by_cases h : key y ≤ key x
    · rw [if_pos h]
    · rw [if_neg h]
      exact (List.Perm.cons y ih).trans (List.Perm.swap x y ys)

theorem sortDescBy_perm {α : Type} (key : α → Amount) (l : List α) :
    (sortDescBy key l).Perm l := by
  induction l with
  | nil => exact List.Perm.refl _
  | cons x xs ih =>
    show (insertDescBy key x (sortDescBy key xs)).Perm (x :: xs)
    exact (insertDescBy_perm key x (sortDescBy key xs)).trans (List.Perm.cons x ih)

theorem mem_sortDescBy {α : Type} (key : α → Amount) (l : List α) (z : α) :
    z ∈ sortDescBy key l ↔ z ∈ l :=
  (sortDescBy_perm key l).mem_iff

/-- C3 counterexample: a single one-to-one settlement with no matching
expense drives the public `youOwe` field of `getUserBalances` strictly
negative, so the claim that every public outstanding amount is clamped at
zero is false on the code. -/
theorem C3_counterexample :
    (getUserBalances (fun _ => none) 0 []
      [{ amount := 5, paidByUserId := 0, receivedByUserId := 1, groupId := none }]).youOwe
      < 0 := by
  norm_num [getUserBalances, dashState, dashFilteredExpenses, dashFilteredSettlements,
    dashApplyExpense, dashApplySettlement, upsert, dashRawLists, sortDescBy,
    insertDescBy, List.filter]

/-- C3 amended: the outstanding amounts of `getSettlementData` (user and
group branches) are clamped at zero and hence non-negative whenever the
stored split amounts are non-negative, and every per-entry amount in the
dashboard lists is non-negative (an absolute value); but the scalar
`youOwe` and `youAreOwed` fields of `getUserBalances` are not clamped and
can go negative (see the counterexample). -/
theorem C3_amended_nonnegativity (users : UserDb) (me other : UserId) (gid : ℕ)
    (groups : ℕ → Option Group) (expensesDb : List Expense)
    (settlementsDb : List Settlement)
    (hsplit : ∀ e ∈ expensesDb, ∀ s ∈ e.splits, 0 ≤ s.amount) :
    (0 ≤ (getSettlementDataUser me other expensesDb settlementsDb).youAreOwed ∧
      0 ≤ (getSettlementDataUser me other expensesDb settlementsDb).youOwe) ∧
    (∀ l, getSettlementDataGroup users me gid groups expensesDb settlementsDb = some l →
      ∀ en ∈ l, 0 ≤ en.youAreOwed ∧ 0 ≤ en.youOwe) ∧
    (∀ en ∈ (getUserBalances users me expensesDb settlementsDb).youOweList,
      0 ≤ en.amount) ∧
    (∀ en ∈ (getUserBalances users me expensesDb settlementsDb).youAreOwedByList,
      0 ≤ en.amount) := by
  refine ⟨?_, ?_, ?_, ?_⟩
  · unfold getSettlementDataUser
    have hexp := pairFold_expenses_nonneg me other (pairScopeExpenses me other expensesDb)
      (0, 0) (fun e he => hsplit e (mem_pairScopeExpenses me other expensesDb e he))
      (le_refl 0) (le_refl 0)
    exact pairFold_settlements_nonneg me (pairScopeSettlements me other settlementsDb)
      _ hexp.1 hexp.2
  · intro l hl en hen
    cases hg : groups gid with
    | none =>
      simp only [getSettlementDataGroup, hg] at hl
      cases hl
    | some group =>
      simp only [getSettlementDataGroup, hg] at hl
      by_cases hm : (group.members.any (fun m => m.userId = me)) = true
      · rw [if_pos hm] at hl
        cases hfold : (expensesDb.filter (fun e => e.groupId = some gid)).foldl
            (sdGroupExpenseStep me)
            (some ((group.members.filter (fun m => ¬ m.userId = me)).map
              (fun m => (m.userId, ({ owed := 0, owing := 0 } : PairTally))))) with
        | none => rw [hfold] at hl; cases hl
        | some bal1 =>
          rw [hfold] at hl
          injection hl with hl
          rw [← hl] at hen
          rcases List.mem_map.mp hen with ⟨p, hp, hpe⟩
          have hbal1 : ∀ p ∈ bal1, 0 ≤ p.2.owed ∧ 0 ≤ p.2.owing := by
            refine sdExpense_fold_nonneg me _ _ ?_ ?_ bal1 hfold
            · intro e he
              exact hsplit e (List.mem_filter.mp he).1
            · intro q hq
              rcases List.mem_map.mp hq with ⟨m, _, hm'⟩
              rw [← hm']
              exact ⟨le_refl 0, le_refl 0⟩
          have hp2 := sdSettle_fold_nonneg me _ bal1 hbal1 p hp
          rw [← hpe]
          exact hp2
      · rw [if_neg hm] at hl
        cases hl
  · intro en hen
    have hen' : en ∈ sortDescBy (fun e => e.amount)
        (dashRawLists users (dashState me expensesDb settlementsDb).balanceByUser).1 :=
      hen
    exact (dashRawLists_nonneg users _).1 en
      ((mem_sortDescBy (fun e => e.amount) _ en).mp hen')
  · intro en hen
    have hen' : en ∈ sortDescBy (fun e => e.amount)
        (dashRawLists users (dashState me expensesDb settlementsDb).balanceByUser).2 :=
      hen
    exact (dashRawLists_nonneg users _).2 en
      ((mem_sortDescBy (fun e => e.amount) _ en).mp hen')

/-- Witness for the amended C3 at a concrete empty record set. -/
theorem C3_amended_nonnegativity_witness :
    (∀ e ∈ ([] : List Expense), ∀ s ∈ e.splits, 0 ≤ s.amount) ∧
    ((0 ≤ (getSettlementDataUser 0 1 [] []).youAreOwed ∧
        0 ≤ (getSettlementDataUser 0 1 [] []).youOwe) ∧
      (∀ l, getSettlementDataGroup (fun _ => none) 0 0 (fun _ => none) [] [] = some l →
        ∀ en ∈ l, 0 ≤ en.youAreOwed ∧ 0 ≤ en.youOwe) ∧
      (∀ en ∈ (getUserBalances (fun _ => none) 0 [] []).youOweList, 0 ≤ en.amount) ∧
      (∀ en ∈ (getUserBalances (fun _ => none) 0 [] []).youAreOwedByList,
        0 ≤ en.amount)) :=
  ⟨(fun _ he => nomatch he),
    C3_amended_nonnegativity (fun _ => none) 0 1 0 (fun _ => none) [] []
      (fun _ he => nomatch he)⟩

/-- C5: every balance view obeys the sign convention: the pair view and
each group-view entry return netBalance = youAreOwed - youOwe, and the
dashboard returns totalBalance = youAreOwed - youOwe. -/
theorem C5_sign_convention (users : UserDb) (me other : UserId) (gid : ℕ)
    (groups : ℕ → Option Group) (expensesDb : List Expense)
    (settlementsDb : List Settlement) :
    (getSettlementDataUser me other expensesDb settlementsDb).netBalance =
      (getSettlementDataUser me other expensesDb settlementsDb).youAreOwed -
        (getSettlementDataUser me other expensesDb settlementsDb).youOwe ∧
    (∀ l, getSettlementDataGroup users me gid groups expensesDb settlementsDb = some l →
      ∀ en ∈ l, en.netBalance = en.youAreOwed - en.youOwe) ∧
    (getUserBalances users me expensesDb settlementsDb).totalBalance =
      (getUserBalances users me expensesDb settlementsDb).youAreOwed -
        (getUserBalances users me expensesDb settlementsDb).youOwe := by
  refine ⟨rfl, ?_, rfl⟩
  intro l hl en hen
  cases hg : groups gid with
  | none =>
    simp only [getSettlementDataGroup, hg] at hl
    cases hl
  | some group =>
    simp only [getSettlementDataGroup, hg] at hl
    by_cases hm : (group.members.any (fun m => m.userId = me)) = true
    · rw [if_pos hm] at hl
      cases hfold : (expensesDb.filter (fun e => e.groupId = some gid)).foldl
          (sdGroupExpenseStep me)
          (some ((group.members.filter (fun m => ¬ m.userId = me)).map
            (fun m => (m.userId, ({ owed := 0, owing := 0 } : PairTally))))) with
      | none => rw [hfold] at hl; cases hl
      | some bal1 =>
        rw [hfold] at hl
        injection hl with hl
        rw [← hl] at hen
        rcases List.mem_map.mp hen with ⟨p, _, hpe⟩
        rw [← hpe]
    · rw [if_neg hm] at hl
      cases hl

/-- Witness for C5 at a concrete empty record set. -/
theorem C5_sign_convention_witness :
    (getSettlementDataUser 0 1 [] []).netBalance =
      (getSettlementDataUser 0 1 [] []).youAreOwed -
        (getSettlementDataUser 0 1 [] []).youOwe ∧
    (∀ l, getSettlementDataGroup (fun _ => none) 0 0 (fun _ => none) [] [] = some l →
      ∀ en ∈ l, en.netBalance = en.youAreOwed - en.youOwe) ∧
    (getUserBalances (fun _ => none) 0 [] []).totalBalance =
      (getUserBalances (fun _ => none) 0 [] []).youAreOwed -
        (getUserBalances (fun _ => none) 0 [] []).youOwe :=
  C5_sign_convention (fun _ => none) 0 1 0 (fun _ => none) [] []

/-- C6: in the pair-scope aggregation of `getSettlementData`, an expense
that does not involve both parties leaves the tallies unchanged, and the
whole fold equals the fold over only the expenses involving both. -/
theorem C6_pair_involvement (me other : UserId) (t : Amount × Amount)
    (es : List Expense) (e : Expense) :
    ((!(involvesUser me e) || !(involvesUser other e)) = true →
      pairExpenseStep me other t e = t) ∧
    es.foldl (pairExpenseStep me other) t =
      (es.filter (fun ex => involvesUser me ex && involvesUser other ex)).foldl
        (pairExpenseStep me other) t := by
  constructor
  · intro h
    unfold pairExpenseStep
    rw [if_pos h]
  · induction es generalizing t with
    | nil => rfl
    | cons ex rest ih =>
      simp only [List.foldl_cons, List.filter_cons]
      by_cases hinv : (involvesUser me ex && involvesUser other ex) = true
      · rw [if_pos hinv]
        simp only [List.foldl_cons]
        exact ih (pairExpenseStep me other t ex)
      · rw [if_neg hinv]
        have h' : (!(involvesUser me ex) || !(involvesUser other ex)) = true := by
          cases hA : involvesUser me ex <;> cases hB : involvesUser other ex <;>
            simp_all
        rw [show pairExpenseStep me other t ex = t from by
          unfold pairExpenseStep; rw [if_pos h']]
        exact ih t

/-- Witness for C6 at a concrete expense not involving the counterpart. -/
theorem C6_pair_involvement_witness :
    ((!(involvesUser 0 (Expense.mk 0 10 [Split.mk 2 10 false] none)) ||
        !(involvesUser 1 (Expense.mk 0 10 [Split.mk 2 10 false] none))) = true →
      pairExpenseStep 0 1 (0, 0) (Expense.mk 0 10 [Split.mk 2 10 false] none) = (0, 0)) ∧
    [Expense.mk 0 10 [Split.mk 2 10 false] none].foldl (pairExpenseStep 0 1) (0, 0) =
      ([Expense.mk 0 10 [Split.mk 2 10 false] none].filter
        (fun ex => involvesUser 0 ex && involvesUser 1 ex)).foldl
          (pairExpenseStep 0 1) (0, 0) :=
  C6_pair_involvement 0 1 (0, 0) [Expense.mk 0 10 [Split.mk 2 10 false] none]
    (Expense.mk 0 10 [Split.mk 2 10 false] none)

/-- C7: `createSettlement` throws whenever the amount is non-positive, the
payer equals the receiver, or a group is given and either party is not a
member of it (a missing group has no members); the error carries no
insert, so the settlement table is unchanged.  When none of these hold and
the caller is one of the parties, the new record is appended. -/
theorem C7_createSettlement_validation (caller : UserId)
    (groups : ℕ → Option Group) (args : SettlementArgs) (db : List Settlement) :
    ((args.amount ≤ 0 ∨ args.paidByUserId = args.receivedByUserId ∨
        (∃ gid, args.groupId = some gid ∧
          (¬ isGroupMember groups gid args.paidByUserId = true ∨
            ¬ isGroupMember groups gid args.receivedByUserId = true))) →
      ∃ msg, createSettlement caller groups args db = Except.error msg) ∧
    (0 < args.amount → ¬ args.paidByUserId = args.receivedByUserId →
      (caller = args.paidByUserId ∨ caller = args.receivedByUserId) →
      (∀ gid, args.groupId = some gid →
        isGroupMember groups gid args.paidByUserId = true ∧
        isGroupMember groups gid args.receivedByUserId = true) →
      createSettlement caller groups args db =
        Except.ok (db ++ [Settlement.mk args.amount args.paidByUserId
          args.receivedByUserId args.groupId])) := by
  constructor
  · intro h
    unfold createSettlement
    by_cases h1 : args.amount ≤ 0
    · rw [if_pos h1]
      exact ⟨_, rfl⟩
    · rw [if_neg h1]
      by_cases h2 : args.paidByUserId = args.receivedByUserId
      · rw [if_pos h2]
        exact ⟨_, rfl⟩
      · rw [if_neg h2]
        by_cases h3 : ¬ caller = args.paidByUserId ∧ ¬ caller = args.receivedByUserId
        · rw [if_pos h3]
          exact ⟨_, rfl⟩
        · rw [if_neg h3]
          rcases h with h | h | ⟨gid, hgid, hmem⟩
          · exact absurd h h1
          · exact absurd h h2
          · simp only [hgid]
            cases hg : groups gid with
            | none =>
              simp only [hg]
              exact ⟨_, rfl⟩
            | some g =>
              simp only [hg]
              have hcond : (!(g.members.any (fun m => m.userId = args.paidByUserId)) ||
                  !(g.members.any (fun m => m.userId = args.receivedByUserId))) = true := by
                unfold isGroupMember at hmem
                simp only [hg] at hmem
                rcases hmem with hm | hm <;> simp_all
              rw [if_pos hcond]
              exact ⟨_, rfl⟩
  · intro hpos hne hcaller hgrp
    have hnc : ¬ (¬ caller = args.paidByUserId ∧ ¬ caller = args.receivedByUserId) := by
      rintro ⟨hc1, hc2⟩
      rcases hcaller with h | h
      · exact hc1 h
      · exact hc2 h
    unfold createSettlement
    rw [if_neg (not_le.mpr hpos), if_neg hne, if_neg hnc]
    cases hgid : args.groupId with
    | none => simp only [hgid]
    | some gid =>
      simp only [hgid]
      have hmm := hgrp gid hgid
      cases hg : groups gid with
      | none =>
        exfalso
        have h1 := hmm.1
        unfold isGroupMember at h1
        simp only [hg] at h1
        exact Bool.noConfusion h1
      | some g =>
        simp only [hg]
        have h1 := hmm.1
        have h2 := hmm.2
        unfold isGroupMember at h1 h2
        simp only [hg] at h1 h2
        have hcond : ¬ ((!(g.members.any (fun m => m.userId = args.paidByUserId)) ||
            !(g.members.any (fun m => m.userId = args.receivedByUserId))) = true) := by
          simp [h1, h2]
        rw [if_neg hcond]

/-- Witness for C7 at a concrete valid one-to-one settlement. -/
theorem C7_createSettlement_validation_witness :
    (((SettlementArgs.mk 5 0 1 none).amount ≤ 0 ∨
        (SettlementArgs.mk 5 0 1 none).paidByUserId =
          (SettlementArgs.mk 5 0 1 none).receivedByUserId ∨
        (∃ gid, (SettlementArgs.mk 5 0 1 none).groupId = some gid ∧
          (¬ isGroupMember (fun _ => none) gid
              (SettlementArgs.mk 5 0 1 none).paidByUserId = true ∨
            ¬ isGroupMember (fun _ => none) gid
              (SettlementArgs.mk 5 0 1 none).receivedByUserId = true))) →
      ∃ msg, createSettlement 0 (fun _ => none) (SettlementArgs.mk 5 0 1 none) [] =
        Except.error msg) ∧
    (0 < (SettlementArgs.mk 5 0 1 none).amount →
      ¬ (SettlementArgs.mk 5 0 1 none).paidByUserId =
        (SettlementArgs.mk 5 0 1 none).receivedByUserId →
      (0 = (SettlementArgs.mk 5 0 1 none).paidByUserId ∨
        0 = (SettlementArgs.mk 5 0 1 none).receivedByUserId) →
      (∀ gid, (SettlementArgs.mk 5 0 1 none).groupId = some gid →
        isGroupMember (fun _ => none) gid
          (SettlementArgs.mk 5 0 1 none).paidByUserId = true ∧
        isGroupMember (fun _ => none) gid
          (SettlementArgs.mk 5 0 1 none).receivedByUserId = true) →
      createSettlement 0 (fun _ => none) (SettlementArgs.mk 5 0 1 none) [] =
        Except.ok ([] ++ [Settlement.mk (SettlementArgs.mk 5 0 1 none).amount
          (SettlementArgs.mk 5 0 1 none).paidByUserId
          (SettlementArgs.mk 5 0 1 none).receivedByUserId
          (SettlementArgs.mk 5 0 1 none).groupId])) :=
  C7_createSettlement_validation 0 (fun _ => none) (SettlementArgs.mk 5 0 1 none) []

/-- C8: the claim that every balance computation substitutes a sentinel
name for a deleted user is violated by `getGroupExpenses`: its member
resolution dereferences the user record without a null check
(convex/groups.js lines 103-108), so the query aborts (`none`), while
`getUserBalances` and the group branch of `getSettlementData` do
substitute the `Unknown` sentinel and complete. -/
theorem C8_deleted_user_resolution :
    getGroupExpenses
        (fun uid => if uid = 0 then some (User.mk "Alice" "a" "img") else none)
        (Group.mk "trip" [Member.mk 0 "admin", Member.mk 1 "member"] 0) [] [] = none ∧
      (getUserBalances
        (fun uid => if uid = 0 then some (User.mk "Alice" "a" "img") else none) 0
        [Expense.mk 1 10 [Split.mk 0 10 false] none] []).youOweList =
        [BalanceEntry.mk 1 "Unknown" none 10] ∧
      getSettlementDataGroup
        (fun uid => if uid = 0 then some (User.mk "Alice" "a" "img") else none) 0 7
        (fun g => if g = 7 then
          some (Group.mk "trip" [Member.mk 0 "admin", Member.mk 1 "member"] 0) else none)
        [] [] =
        some [GroupSettlementEntry.mk 1 "Unknown" none 0 0 0] := by
  refine ⟨rfl, ?_, ?_⟩
  · norm_num [getUserBalances, dashState, dashFilteredExpenses, dashFilteredSettlements,
      dashApplyExpense, dashApplySettlement, upsert, dashRawLists, sortDescBy,
      insertDescBy, List.filter, List.find?]
  · norm_num [getSettlementDataGroup, sdGroupExpenseStep, sdGroupSettleStep,
      nameOrUnknown, alLookup, alUpdate, List.filter]

theorem insertDescBy_sorted {α : Type} (key : α → Amount) (x : α) (l : List α)
    (hl : l.Pairwise (fun a b => key b ≤ key a)) :
    (insertDescBy key x l).Pairwise (fun a b => key b ≤ key a) := by
  induction l with
  | nil => simp [insertDescBy]
  | cons y ys ih =>
    unfold insertDescBy
    rcases List.pairwise_cons.mp hl with ⟨hy, hys⟩
    by_cases h : key y ≤ key x
    · rw [if_pos h]
      refine List.pairwise_cons.mpr ⟨?_, hl⟩
      intro z hz
      rcases List.mem_cons.mp hz with rfl | hz'
      · exact h
      · exact le_trans (hy z hz') h
    · rw [if_neg h]
      refine List.pairwise_cons.mpr ⟨?_, ih hys⟩
      intro z hz
      have hz2 := (insertDescBy_perm key x ys).mem_iff.mp hz
      rcases List.mem_cons.mp hz2 with rfl | hz'
      · exact le_of_lt (lt_of_not_le h)
      · exact hy z hz'

theorem sortDescBy_sorted {α : Type} (key : α → Amount) (l : List α) :
    (sortDescBy key l).Pairwise (fun a b => key b ≤ key a) := by
  induction l with
  | nil => exact List.Pairwise.nil
  | cons x xs ih =>
    show (insertDescBy key x (sortDescBy key xs)).Pairwise (fun a b => key b ≤ key a)
    exact insertDescBy_sorted key x (sortDescBy key xs) ih

theorem insertDescBy_filter {α : Type} (key : α → Amount) (c : Amount) (x : α)
    (l : List α) :
    (insertDescBy key x l).filter (fun e => key e = c) =
      (x :: l).filter (fun e => key e = c) := by
  induction l with
  | nil => rfl
  | cons y ys ih =>
    unfold insertDescBy
    by_cases h : key y ≤ key x
    · rw [if_pos h]
    · rw [if_neg h]
      by_cases hy : key y = c <;> by_cases hx : key x = c
      · exact absurd (le_of_eq (hy.trans hx.symm)) h
      · simp [List.filter_cons, ih, hy, hx]
      · simp [List.filter_cons, ih, hy, hx]
      · simp [List.filter_cons, ih, hy, hx]

theorem sortDescBy_filter {α : Type} (key : α → Amount) (c : Amount) (l : List α) :
    (sortDescBy key l).filter (fun e => key e = c) =
      l.filter (fun e => key e = c) := by
  induction l with
  | nil => rfl
  | cons x xs ih =>
    show (insertDescBy key x (sortDescBy key xs)).filter (fun e => key e = c) = _
    rw [insertDescBy_filter]
    simp only [List.filter_cons]
    rw [ih]

/-- C9: the `youOwe` and `youAreOwedBy` lists of `getUserBalances` and the
`owedBy`/`owes` lists rendered by `GroupBalances` are sorted in
non-increasing order of amount, and the sort is stable: the entries of any
one amount appear exactly in the order they were produced. -/
theorem C9_descending_stable_sort (users : UserDb) (me currentUserId : UserId)
    (expensesDb : List Expense) (settlementsDb : List Settlement)
    (balances : List MemberBalance) (c : Amount) :
    (getUserBalances users me expensesDb settlementsDb).youOweList.Pairwise
        (fun a b => b.amount ≤ a.amount) ∧
    (getUserBalances users me expensesDb settlementsDb).youAreOwedByList.Pairwise
        (fun a b => b.amount ≤ a.amount) ∧
    (getUserBalances users me expensesDb settlementsDb).youOweList.filter
        (fun en => en.amount = c) =
      (dashRawLists users (dashState me expensesDb settlementsDb).balanceByUser).1.filter
        (fun en => en.amount = c) ∧
    (getUserBalances users me expensesDb settlementsDb).youAreOwedByList.filter
        (fun en => en.amount = c) =
      (dashRawLists users (dashState me expensesDb settlementsDb).balanceByUser).2.filter
        (fun en => en.amount = c) ∧
    (∀ p, groupBalancesLists balances currentUserId = some p →
      p.1.Pairwise (fun a b => b.amount ≤ a.amount) ∧
      p.2.Pairwise (fun a b => b.amount ≤ a.amount) ∧
      ∃ me', balances.find? (fun b => b.id = currentUserId) = some me' ∧
        p.1.filter (fun en => en.amount = c) =
          (me'.owedBy.map (fun q =>
            EnrichedEntry.mk (balances.find? (fun b => b.id = q.1)) q.2)).filter
            (fun en => en.amount = c) ∧
        p.2.filter (fun en => en.amount = c) =
          (me'.owes.map (fun q =>
            EnrichedEntry.mk (balances.find? (fun b => b.id = q.1)) q.2)).filter
            (fun en => en.amount = c)) := by
  have e1 : (getUserBalances users me expensesDb settlementsDb).youOweList =
      sortDescBy (fun e => e.amount)
        (dashRawLists users (dashState me expensesDb settlementsDb).balanceByUser).1 :=
    rfl
  have e2 : (getUserBalances users me expensesDb settlementsDb).youAreOwedByList =
      sortDescBy (fun e => e.amount)
        (dashRawLists users (dashState me expensesDb settlementsDb).balanceByUser).2 :=
    rfl
  refine ⟨?_, ?_, ?_, ?_, ?_⟩
  · rw [e1]
    exact sortDescBy_sorted (fun e : BalanceEntry => e.amount) _
  · rw [e2]
    exact sortDescBy_sorted (fun e : BalanceEntry => e.amount) _
  · rw [e1]
    exact sortDescBy_filter (fun e : BalanceEntry => e.amount) c _
  · rw [e2]
    exact sortDescBy_filter (fun e : BalanceEntry => e.amount) c _
  · intro p hp
    unfold groupBalancesLists at hp
    rcases Option.map_eq_some'.mp hp with ⟨me', hfind, hfp⟩
    rw [← hfp]
    refine ⟨sortDescBy_sorted (fun e : EnrichedEntry => e.amount) _,
      sortDescBy_sorted (fun e : EnrichedEntry => e.amount) _, me', hfind,
      sortDescBy_filter (fun e : EnrichedEntry => e.amount) c _,
      sortDescBy_filter (fun e : EnrichedEntry => e.amount) c _⟩

/-- Witness for C9: the dashboard part at an empty record set and the
group part at a concrete one-member balance row. -/
theorem C9_descending_stable_sort_witness :
    (getUserBalances (fun _ => none) 0 [] []).youOweList.Pairwise
        (fun a b => b.amount ≤ a.amount) ∧
    (([EnrichedEntry.mk none 7] : List EnrichedEntry).Pairwise
        (fun a b => b.amount ≤ a.amount) ∧
      ([EnrichedEntry.mk none 2] : List EnrichedEntry).Pairwise
        (fun a b => b.amount ≤ a.amount) ∧
      ∃ me', [MemberBalance.mk 0 "A" "i" "admin" 0 [(1, 2)] [(2, 7)]].find?
          (fun b => b.id = 0) = some me' ∧
        ([EnrichedEntry.mk none 7] : List EnrichedEntry).filter
            (fun en => en.amount = 7) =
          (me'.owedBy.map (fun q =>
            EnrichedEntry.mk
              ([MemberBalance.mk 0 "A" "i" "admin" 0 [(1, 2)] [(2, 7)]].find?
                (fun b => b.id = q.1)) q.2)).filter (fun en => en.amount = 7) ∧
        ([EnrichedEntry.mk none 2] : List EnrichedEntry).filter
            (fun en => en.amount = 7) =
          (me'.owes.map (fun q =>
            EnrichedEntry.mk
              ([MemberBalance.mk 0 "A" "i" "admin" 0 [(1, 2)] [(2, 7)]].find?
                (fun b => b.id = q.1)) q.2)).filter (fun en => en.amount = 7)) :=
  ⟨(C9_descending_stable_sort (fun _ => none) 0 0 [] []
      [MemberBalance.mk 0 "A" "i" "admin" 0 [(1, 2)] [(2, 7)]] 7).1,
    (C9_descending_stable_sort (fun _ => none) 0 0 [] []
      [MemberBalance.mk 0 "A" "i" "admin" 0 [(1, 2)] [(2, 7)]] 7).2.2.2.2
      ([EnrichedEntry.mk none 7], [EnrichedEntry.mk none 2])
      (by norm_num [groupBalancesLists, sortDescBy, insertDescBy, List.find?])⟩

theorem mem_jsSetInsert (s : List UserId) (x y : UserId) :
    y ∈ jsSetInsert s x ↔ y ∈ s ∨ y = x := by
  unfold jsSetInsert
  by_cases h : x ∈ s
  · rw [if_pos h]
    constructor
    · exact Or.inl
    · rintro (hy | rfl)
      · exact hy
      · exact h
  · rw [if_neg h]
    simp [List.mem_append]

theorem jsSetInsert_nodup (s : List UserId) (x : UserId) (h : s.Nodup) :
    (jsSetInsert s x).Nodup := by
  unfold jsSetInsert
  by_cases hx : x ∈ s
  · rw [if_pos hx]
    exact h
  · rw [if_neg hx]
    rw [List.nodup_append]
    refine ⟨h, List.nodup_singleton x, ?_⟩
    intro a ha hb
    rw [List.mem_singleton] at hb
    subst hb
    exact hx ha

theorem foldl_jsSetInsert_nodup (args : List UserId) :
    ∀ s : List UserId, s.Nodup → (args.foldl jsSetInsert s).Nodup := by
  induction args with
  | nil => intro s h; exact h
  | cons a rest ih =>
    intro s h
    simp only [List.foldl_cons]
    exact ih (jsSetInsert s a) (jsSetInsert_nodup s a h)

/-- C10: every group successfully created by `createGroup` has a
duplicate-free member id list containing the creator with role `admin`,
and every other member has role `member`, even when the requested member
list repeats users or includes the creator. -/
theorem C10_createGroup_members (caller : UserId) (users : UserDb)
    (name : String) (memberArgs : List UserId) (g : Group)
    (h : createGroup caller users name memberArgs = Except.ok g) :
    (g.members.map Member.userId).Nodup ∧
      Member.mk caller "admin" ∈ g.members ∧
      (∀ m ∈ g.members, m.userId = caller → m.role = "admin") ∧
      (∀ m ∈ g.members, ¬ m.userId = caller → m.role = "member") := by
  unfold createGroup at h
  by_cases hn : jsTrim name = ""
  · rw [if_pos hn] at h
    cases h
  · rw [if_neg hn] at h
    simp only at h
    cases hf : (jsSetInsert (memberArgs.foldl jsSetInsert []) caller).find?
        (fun id => (users id).isNone) with
    | some u =>
      rw [hf] at h
      cases h
    | none =>
      rw [hf] at h
      injection h with h
      rw [← h]
      simp only
      refine ⟨?_, ?_, ?_, ?_⟩
      · rw [List.map_map]
        rw [show (Member.userId ∘ fun id =>
          ({ userId := id, role := if id = caller then "admin" else "member" } : Member)) =
            id from rfl]
        rw [List.map_id]
        exact jsSetInsert_nodup _ caller
          (foldl_jsSetInsert_nodup memberArgs [] List.nodup_nil)
      · refine List.mem_map.mpr ⟨caller, ?_, ?_⟩
        · exact (mem_jsSetInsert _ caller caller).mpr (Or.inr rfl)
        · show Member.mk caller (if caller = caller then "admin" else "member") =
            Member.mk caller "admin"
          rw [if_pos rfl]
      · intro m hm hmc
        rcases List.mem_map.mp hm with ⟨id, _, hid⟩
        rw [← hid]
        rw [← hid] at hmc
        have hidc : id = caller := hmc
        show (if id = caller then "admin" else "member") = "admin"
        rw [if_pos hidc]
      · intro m hm hmc
        rcases List.mem_map.mp hm with ⟨id, _, hid⟩
        rw [← hid]
        rw [← hid] at hmc
        have hidc : ¬ id = caller := hmc
        show (if id = caller then "admin" else "member") = "member"
        rw [if_neg hidc]

/-- Witness for C10: creating a group with a duplicated member list. -/
theorem C10_createGroup_members_witness :
    createGroup 0 (fun _ => some (User.mk "U" "e" "i")) "trip" [1, 1, 2] =
        Except.ok (Group.mk "trip"
          [Member.mk 1 "member", Member.mk 2 "member", Member.mk 0 "admin"] 0) ∧
      ((Group.mk "trip"
          [Member.mk 1 "member", Member.mk 2 "member", Member.mk 0 "admin"] 0).members.map
            Member.userId).Nodup ∧
      Member.mk 0 "admin" ∈ (Group.mk "trip"
        [Member.mk 1 "member", Member.mk 2 "member", Member.mk 0 "admin"] 0).members ∧
      (∀ m ∈ (Group.mk "trip"
          [Member.mk 1 "member", Member.mk 2 "member", Member.mk 0 "admin"] 0).members,
        m.userId = 0 → m.role = "admin") ∧
      (∀ m ∈ (Group.mk "trip"
          [Member.mk 1 "member", Member.mk 2 "member", Member.mk 0 "admin"] 0).members,
        ¬ m.userId = 0 → m.role = "member") :=
  ⟨rfl,
    C10_createGroup_members 0 (fun _ => some (User.mk "U" "e" "i")) "trip" [1, 1, 2]
      (Group.mk "trip" [Member.mk 1 "member", Member.mk 2 "member", Member.mk 0 "admin"] 0)
      rfl⟩

end Splitz
